import Mathlib

/-!
Shallow embedding of the AreaMomentTool core
(`src/AreaMomentsCalculator.cpp`, `src/AreaMomentsCommand.cpp`).

C++ `double` arithmetic is modelled by exact real arithmetic (`ℝ`).
Flat coordinate arrays (`std::vector<double>`) become `List ℝ`; index
arrays (`std::vector<int>`) become `List ℤ`.  Out-of-range accesses are
undefined behaviour in the source (the spec declares in-range indices a
precondition), so `operator[]` is embedded as `List.getD · · 0`, and a
negative index is clamped by `Int.toNat`.
-/

namespace AreaMoment

noncomputable section

/-- Struct `Vector3D` of `AreaMomentsCalculator.h`: a 3D vector of doubles. -/
structure Vector3D where
  x : ℝ
  y : ℝ
  z : ℝ

namespace Vector3D

/-- Operator `Vector3D::operator-`. -/
def sub (a b : Vector3D) : Vector3D := ⟨a.x - b.x, a.y - b.y, a.z - b.z⟩

/-- Operator `Vector3D::operator+`. -/
def add (a b : Vector3D) : Vector3D := ⟨a.x + b.x, a.y + b.y, a.z + b.z⟩

/-- Operator `Vector3D::operator*` (scalar on the right). -/
def smul (a : Vector3D) (s : ℝ) : Vector3D := ⟨a.x * s, a.y * s, a.z * s⟩

/-- Method `Vector3D::Dot`. -/
def Dot (a b : Vector3D) : ℝ := a.x * b.x + a.y * b.y + a.z * b.z

/-- Method `Vector3D::Cross`. -/
def Cross (a b : Vector3D) : Vector3D :=
  ⟨a.y * b.z - a.z * b.y, a.z * b.x - a.x * b.z, a.x * b.y - a.y * b.x⟩

/-- Method `Vector3D::Length`. -/
def Length (a : Vector3D) : ℝ := Real.sqrt (a.x * a.x + a.y * a.y + a.z * a.z)

/-- Method `Vector3D::Normalize`: returns the zero vector when the length is ≤ 1e-10. -/
def Normalize (a : Vector3D) : Vector3D :=
  let len := a.Length
  if len > 1e-10 then ⟨a.x / len, a.y / len, a.z / len⟩ else ⟨0, 0, 0⟩

end Vector3D

/-- Struct `AreaMomentsResult` of `AreaMomentsCalculator.h` (all fields zero-initialised). -/
structure AreaMomentsResult where
  area : ℝ := 0
  Cx : ℝ := 0
  Cy : ℝ := 0
  Ix : ℝ := 0
  Iy : ℝ := 0
  Ixy : ℝ := 0
  Imin : ℝ := 0
  Imax : ℝ := 0
  theta : ℝ := 0

/-- Value of a default-constructed (all-zero) `AreaMomentsResult`. -/
def zeroResult : AreaMomentsResult := {}

/-- Function `CAreaMomentsCalculator::SignedTriangleArea`. -/
def SignedTriangleArea (x1 y1 x2 y2 x3 y3 : ℝ) : ℝ :=
  0.5 * ((x2 - x1) * (y3 - y1) - (x3 - x1) * (y2 - y1))

/-- Function `CAreaMomentsCalculator::TriangleCentroid` (out-parameters returned as a pair). -/
def TriangleCentroid (x1 y1 x2 y2 x3 y3 : ℝ) : ℝ × ℝ :=
  ((x1 + x2 + x3) / 3, (y1 + y2 + y3) / 3)

/-- Function `CAreaMomentsCalculator::TriangleMomentsAboutOrigin`
(out-parameters returned as a triple `(Ix, Iy, Ixy)`). -/
def TriangleMomentsAboutOrigin (x1 y1 x2 y2 x3 y3 area : ℝ) : ℝ × ℝ × ℝ :=
  ((area / 6) * (y1 * y1 + y2 * y2 + y3 * y3 + y1 * y2 + y2 * y3 + y3 * y1),
   (area / 6) * (x1 * x1 + x2 * x2 + x3 * x3 + x1 * x2 + x2 * x3 + x3 * x1),
   (area / 12) * (x1 * (2 * y1 + y2 + y3) + x2 * (y1 + 2 * y2 + y3) + x3 * (y1 + y2 + 2 * y3)))

/-- Function `atan2(y, x)` of the C library (quadrant-aware arctangent), exact-real model. -/
def atan2 (y x : ℝ) : ℝ :=
  if 0 < x then Real.arctan (y / x)
  else if x < 0 then
    (if 0 ≤ y then Real.arctan (y / x) + Real.pi else Real.arctan (y / x) - Real.pi)
  else
    (if 0 < y then Real.pi / 2 else if y < 0 then -(Real.pi / 2) else 0)

/-- A 2D vertex of the flat `vertices2D` array: `(vertices2D[i*2], vertices2D[i*2+1])`. -/
def vert2 (v : List ℝ) (i : ℤ) : ℝ × ℝ :=
  (v.getD (i.toNat * 2) 0, v.getD (i.toNat * 2 + 1) 0)

/-- The three 2D vertices of one triangle of the index array. -/
def triOf (v : List ℝ) (i0 i1 i2 : ℤ) : (ℝ × ℝ) × (ℝ × ℝ) × (ℝ × ℝ) :=
  (vert2 v i0, vert2 v i1, vert2 v i2)

/-- First pass of `CAreaMomentsCalculator::Calculate`: accumulates
`(totalArea, sumCx, sumCy)` over the triangle list (the loop runs
`indices.size() / 3` times, consuming the index array in triples). -/
def pass1 (v : List ℝ) : List ℤ → ℝ × ℝ × ℝ
  | i0 :: i1 :: i2 :: rest =>
    let T := triOf v i0 i1 i2
    let area := SignedTriangleArea T.1.1 T.1.2 T.2.1.1 T.2.1.2 T.2.2.1 T.2.2.2
    let c := TriangleCentroid T.1.1 T.1.2 T.2.1.1 T.2.1.2 T.2.2.1 T.2.2.2
    let acc := pass1 v rest
    (acc.1 + area, acc.2.1 + area * c.1, acc.2.2 + area * c.2)
  | _ => (0, 0, 0)

/-- Second pass of `CAreaMomentsCalculator::Calculate`: accumulates
`(Ix_origin, Iy_origin, Ixy_origin)` over the triangle list. -/
def pass2 (v : List ℝ) : List ℤ → ℝ × ℝ × ℝ
  | i0 :: i1 :: i2 :: rest =>
    let T := triOf v i0 i1 i2
    let area := SignedTriangleArea T.1.1 T.1.2 T.2.1.1 T.2.1.2 T.2.2.1 T.2.2.2
    let m := TriangleMomentsAboutOrigin T.1.1 T.1.2 T.2.1.1 T.2.1.2 T.2.2.1 T.2.2.2 area
    let acc := pass2 v rest
    (acc.1 + m.1, acc.2.1 + m.2.1, acc.2.2 + m.2.2)
  | _ => (0, 0, 0)

/-- Body of the nondegenerate branch of `CAreaMomentsCalculator::Calculate`
(lines 59–115), as a function of the two accumulator triples
`p1 = (totalArea, sumCx, sumCy)` and `p2 = (Ix_origin, Iy_origin, Ixy_origin)`. -/
def calcCore (p1 p2 : ℝ × ℝ × ℝ) : AreaMomentsResult :=
  let totalArea := p1.1
  let area := |totalArea|
  let Cx := p1.2.1 / totalArea
  let Cy := p1.2.2 / totalArea
  let Ix := p2.1 - area * Cy * Cy
  let Iy := p2.2.1 - area * Cx * Cx
  let Ixy := p2.2.2 - area * Cx * Cy
  let Iavg := (Ix + Iy) / 2
  let Idiff := (Ix - Iy) / 2
  let R := Real.sqrt (Idiff * Idiff + Ixy * Ixy)
  { area := area, Cx := Cx, Cy := Cy, Ix := Ix, Iy := Iy, Ixy := Ixy,
    Imax := Iavg + R, Imin := Iavg - R,
    theta := if |Ixy| < 1e-15 ∧ |Idiff| < 1e-15 then 0
             else 0.5 * atan2 (-2 * Ixy) (Ix - Iy) }

/-- Function `CAreaMomentsCalculator::Calculate`. -/
def Calculate (vertices2D : List ℝ) (indices : List ℤ) : AreaMomentsResult :=
  if vertices2D = [] ∨ indices = [] then zeroResult
  else if indices.length / 3 = 0 then zeroResult
  else if |(pass1 vertices2D indices).1| < 1e-15 then zeroResult
  else calcCore (pass1 vertices2D indices) (pass2 vertices2D indices)

/-- The projection loop of `ProjectTo2D`: for each 3D vertex (three consecutive
coordinates), emit `((v - origin)·xAxis, (v - origin)·yAxis)`.  The loop runs
`vertices3D.size() / 3` times, so a trailing fragment of fewer than three
coordinates is ignored. -/
def projectWithBasis (origin xAxis yAxis : Vector3D) : List ℝ → List ℝ
  | x :: y :: z :: rest =>
    let p := (Vector3D.mk x y z).sub origin
    p.Dot xAxis :: p.Dot yAxis :: projectWithBasis origin xAxis yAxis rest
  | _ => []

/-- Function `CAreaMomentsCalculator::ProjectTo2D`. -/
def ProjectTo2D (vertices3D : List ℝ) (normal origin : Vector3D) : List ℝ :=
  if vertices3D = [] then []
  else
    let zAxis := normal.Normalize
    let globalY : Vector3D := ⟨0, 1, 0⟩
    let globalX : Vector3D := ⟨1, 0, 0⟩
    let xAxis := if |zAxis.Dot globalY| < 0.9 then (globalY.Cross zAxis).Normalize
                 else (zAxis.Cross globalX).Normalize
    let yAxis := (zAxis.Cross xAxis).Normalize
    projectWithBasis origin xAxis yAxis vertices3D

/-- A 3D vertex of the flat `vertices3D` array:
`(vertices3D[i*3], vertices3D[i*3+1], vertices3D[i*3+2])`. -/
def vert3 (v : List ℝ) (i : ℤ) : Vector3D :=
  ⟨v.getD (i.toNat * 3) 0, v.getD (i.toNat * 3 + 1) 0, v.getD (i.toNat * 3 + 2) 0⟩

/-- Function `CAreaMomentsCalculator::CalculateNormal`. -/
def CalculateNormal (vertices3D : List ℝ) (indices : List ℤ) : Vector3D :=
  if indices.length < 3 ∨ vertices3D.length < 9 then ⟨0, 0, 1⟩
  else
    let v0 := vert3 vertices3D (indices.getD 0 0)
    let v1 := vert3 vertices3D (indices.getD 1 0)
    let v2 := vert3 vertices3D (indices.getD 2 0)
    ((v1.sub v0).Cross (v2.sub v0)).Normalize

/-!
### The derived section-property stage (`src/AreaMomentsCommand.cpp`)
-/

/-- Struct `ImGuiAreaMomentsResult` of `ImGuiAreaMomentsWindow.h` (all numeric fields
zero-initialised).  The `faceType` label is an opaque string supplied by the
CAD kernel (`GetFaceTypeName`), outside the pure core, so it is not modelled. -/
structure ImGuiAreaMomentsResult where
  area : ℝ := 0
  perimeter : ℝ := 0
  Cx : ℝ := 0
  Cy : ℝ := 0
  Ixx_origin : ℝ := 0
  Ixy_origin : ℝ := 0
  Iyy_origin : ℝ := 0
  J_origin : ℝ := 0
  Ix_centroid : ℝ := 0
  Iy_centroid : ℝ := 0
  Ixy_centroid : ℝ := 0
  Ix_principal : ℝ := 0
  Iy_principal : ℝ := 0
  J_centroid : ℝ := 0
  theta_deg : ℝ := 0
  Rx : ℝ := 0
  Ry : ℝ := 0
  Sx_min : ℝ := 0
  Sy_min : ℝ := 0
  cx_max : ℝ := 0
  cy_max : ℝ := 0

/-- The extreme-fiber loop of `CalculateFace` (lines 301–309): running maxima,
starting from 0, of `|vertices2D[i] - Cx|` and `|vertices2D[i+1] - Cy|` for
`i = 0, 2, 4, …` while `i < vertices2D.size()`.  On an odd-length array the
last iteration's read of `vertices2D[i+1]` is out of range; as everywhere in
this embedding the out-of-range access is modelled as the value 0. -/
def extremeFibers (Cx Cy : ℝ) : List ℝ → ℝ × ℝ
  | x :: y :: rest =>
    let p := extremeFibers Cx Cy rest
    (max |x - Cx| p.1, max |y - Cy| p.2)
  | [x] => (max |x - Cx| 0, max |(0 : ℝ) - Cy| 0)
  | [] => (0, 0)

/-- The pure arithmetic of `CAreaMomentsCommand::CalculateFace`
(lines 262–321), after the mesh has been extracted: fills an
`ImGuiAreaMomentsResult` from the calculator's result, the 2D vertex list and
the extracted perimeter. -/
def CalculateFaceDerived (vertices2D : List ℝ) (indices : List ℤ) (perimeter : ℝ) :
    ImGuiAreaMomentsResult :=
  let basicResult := Calculate vertices2D indices
  let area := basicResult.area
  let Cx := basicResult.Cx
  let Cy := basicResult.Cy
  let IxxO := basicResult.Ix + area * Cy * Cy
  let IyyO := basicResult.Iy + area * Cx * Cx
  let IxyO := basicResult.Ixy + area * Cx * Cy
  let ext := extremeFibers Cx Cy vertices2D
  { area := area
    perimeter := perimeter
    Cx := Cx, Cy := Cy
    Ixx_origin := IxxO, Iyy_origin := IyyO, Ixy_origin := IxyO
    J_origin := IxxO + IyyO
    J_centroid := basicResult.Ix + basicResult.Iy
    Ix_centroid := basicResult.Ix
    Iy_centroid := basicResult.Iy
    Ixy_centroid := basicResult.Ixy
    Ix_principal := basicResult.Imin
    Iy_principal := basicResult.Imax
    theta_deg := basicResult.theta * 180 / 3.14159265358979323846
    Rx := if area > 1e-10 then Real.sqrt (basicResult.Ix / area) else 0
    Ry := if area > 1e-10 then Real.sqrt (basicResult.Iy / area) else 0
    cx_max := ext.1
    cy_max := ext.2
    Sx_min := if ext.2 > 1e-10 then basicResult.Ix / ext.2 else 0
    Sy_min := if ext.1 > 1e-10 then basicResult.Iy / ext.1 else 0 }

/-- The pure part of `CAreaMomentsCommand::ExtractFaceMesh` (lines 349–393),
taking the raw facet array (the contents of the `SAFEARRAY` returned by the
CAD kernel's `FacetData`, 9 doubles per triangle) as a list: fewer than 10
values, zero triangles, or an empty projection yield failure (`none`);
otherwise the first `9·numTriangles` values become the 3D vertex list, the
indices are the sequence `0 … 3·numTriangles - 1`, `perimeter` is
initialised to 0 and never updated, and the vertices are projected with the
normal of the first triangle about the first vertex. -/
def ExtractFaceMesh (pData : List ℝ) : Option (List ℝ × List ℤ × ℝ) :=
  let dataSize := pData.length
  if dataSize < 10 then none
  else
    let numTriangles := dataSize / 9
    if numTriangles = 0 then none
    else
      let vertices3D := (List.range (numTriangles * 9)).map (fun k => pData.getD k 0)
      let indices := (List.range (numTriangles * 3)).map (fun k => (k : ℤ))
      let normal := CalculateNormal vertices3D indices
      let origin : Vector3D :=
        ⟨vertices3D.getD 0 0, vertices3D.getD 1 0, vertices3D.getD 2 0⟩
      let vertices2D := ProjectTo2D vertices3D normal origin
      if vertices2D = [] then none else some (vertices2D, indices, 0)

/-- `CAreaMomentsCommand::CalculateFace` as a pure pipeline: extract the mesh
from the raw facet data, then run the derived section-property stage.  A
`none` models the `return false` paths. -/
def CalculateFace (pData : List ℝ) : Option ImGuiAreaMomentsResult :=
  (ExtractFaceMesh pData).map fun m => CalculateFaceDerived m.1 m.2.1 m.2.2

/-!
### Analysis vocabulary

The remaining definitions are not translations of further source code; they
are the vocabulary in which properties of the functions above are stated:
the triangle list a mesh denotes, the classical decomposition of the
accumulated integrals into directed-edge contributions (used to compare two
triangulations of the same region), in-plane rotations (used to compare two
in-plane bases), and the winding-reversal transformation of an index array.
-/

/-- A 2D point, as used by the calculator. -/
abbrev Pt := ℝ × ℝ

/-- One triangle: three 2D points. -/
abbrev Tri := Pt × Pt × Pt

/-- List of triangles denoted by a mesh: the same triples of 2D vertices
that the two passes of `Calculate` traverse. -/
def trisOf (v : List ℝ) : List ℤ → List Tri
  | i0 :: i1 :: i2 :: rest => triOf v i0 i1 i2 :: trisOf v rest
  | _ => []

/-- Signed area of a triangle (as `Calculate` computes it). -/
def triArea (T : Tri) : ℝ :=
  SignedTriangleArea T.1.1 T.1.2 T.2.1.1 T.2.1.2 T.2.2.1 T.2.2.2

/-- First-pass x-contribution of a triangle: `signedArea · cx`. -/
def triMx (T : Tri) : ℝ :=
  triArea T * (TriangleCentroid T.1.1 T.1.2 T.2.1.1 T.2.1.2 T.2.2.1 T.2.2.2).1

/-- First-pass y-contribution of a triangle: `signedArea · cy`. -/
def triMy (T : Tri) : ℝ :=
  triArea T * (TriangleCentroid T.1.1 T.1.2 T.2.1.1 T.2.1.2 T.2.2.1 T.2.2.2).2

/-- Second-pass `Ix` contribution of a triangle. -/
def triIx (T : Tri) : ℝ :=
  (TriangleMomentsAboutOrigin T.1.1 T.1.2 T.2.1.1 T.2.1.2 T.2.2.1 T.2.2.2 (triArea T)).1

/-- Second-pass `Iy` contribution of a triangle. -/
def triIy (T : Tri) : ℝ :=
  (TriangleMomentsAboutOrigin T.1.1 T.1.2 T.2.1.1 T.2.1.2 T.2.2.1 T.2.2.2 (triArea T)).2.1

/-- Second-pass `Ixy` contribution of a triangle. -/
def triIxy (T : Tri) : ℝ :=
  (TriangleMomentsAboutOrigin T.1.1 T.1.2 T.2.1.1 T.2.1.2 T.2.2.1 T.2.2.2 (triArea T)).2.2

/-- Sum of an edge functional over the three directed edges of every triangle
of a list. -/
def edgeSum (f : Pt → Pt → ℝ) (tris : List Tri) : ℝ :=
  (tris.map fun T => f T.1 T.2.1 + f T.2.1 T.2.2 + f T.2.2 T.1).sum

/-- An antisymmetric edge functional: reversing a directed edge negates it. -/
def Antisym (f : Pt → Pt → ℝ) : Prop := ∀ p q, f p q = -f q p

/-- Two triangle lists triangulate the same oriented region when every
antisymmetric edge functional sums equally over them: interior edges, which
occur once in each direction, cancel, so the sum depends only on the common
oriented boundary. -/
def SameChain (t1 t2 : List Tri) : Prop :=
  ∀ f : Pt → Pt → ℝ, Antisym f → edgeSum f t1 = edgeSum f t2

/-- Edge functional for the signed area (shoelace term). -/
def eA (p q : Pt) : ℝ := (p.1 * q.2 - q.1 * p.2) / 2

/-- Edge functional for the area-weighted x-centroid. -/
def eMx (p q : Pt) : ℝ := (p.1 + q.1) * (p.1 * q.2 - q.1 * p.2) / 6

/-- Edge functional for the area-weighted y-centroid. -/
def eMy (p q : Pt) : ℝ := (p.2 + q.2) * (p.1 * q.2 - q.1 * p.2) / 6

/-- Edge functional for the second moment about the x-axis. -/
def eIx (p q : Pt) : ℝ :=
  (p.2 ^ 2 + p.2 * q.2 + q.2 ^ 2) * (p.1 * q.2 - q.1 * p.2) / 12

/-- Edge functional for the second moment about the y-axis. -/
def eIy (p q : Pt) : ℝ :=
  (p.1 ^ 2 + p.1 * q.1 + q.1 ^ 2) * (p.1 * q.2 - q.1 * p.2) / 12

/-- Edge functional for the product of inertia about the origin. -/
def eIxy (p q : Pt) : ℝ :=
  (p.1 * q.2 + 2 * p.1 * p.2 + 2 * q.1 * q.2 + q.1 * p.2) * (p.1 * q.2 - q.1 * p.2) / 24

/-- Rotation of a 2D point: the coordinates of the same point with respect to
an in-plane basis rotated about the normal (`c = cos φ`, `s = sin φ`). -/
def rotPt (c s : ℝ) (p : Pt) : Pt := (c * p.1 + s * p.2, -s * p.1 + c * p.2)

/-- Rotation applied to all three vertices of a triangle. -/
def rotTri (c s : ℝ) (T : Tri) : Tri := (rotPt c s T.1, rotPt c s T.2.1, rotPt c s T.2.2)

/-- Rotation applied pairwise to a flat 2D vertex array. -/
def rot2 (c s : ℝ) : List ℝ → List ℝ
  | x :: y :: rest => (c * x + s * y) :: (-s * x + c * y) :: rot2 c s rest
  | l => l

/-- Reversal of the winding of every triangle of an index array: the second
and third index of each triple are swapped. -/
def reverseWinding : List ℤ → List ℤ
  | i0 :: i1 :: i2 :: rest => i0 :: i2 :: i1 :: reverseWinding rest
  | l => l

end

/-!
## Helper lemmas
-/

/-- Unit-square pass 1: total signed area 1, weighted centroid sums (1/2, 1/2). -/
theorem pass1_unit_square :
    pass1 [0, 0, 1, 0, 1, 1, 0, 1] [0, 1, 2, 0, 2, 3] = (1, 1 / 2, 1 / 2) := by
  simp [pass1, triOf, vert2, SignedTriangleArea, TriangleCentroid, List.getD]
  norm_num

/-- Unit-square pass 2: moments about the origin (1/3, 1/3, 1/4). -/
theorem pass2_unit_square :
    pass2 [0, 0, 1, 0, 1, 1, 0, 1] [0, 1, 2, 0, 2, 3] = (1 / 3, 1 / 3, 1 / 4) := by
  simp [pass2, triOf, vert2, SignedTriangleArea, TriangleMomentsAboutOrigin, List.getD]
  norm_num

/-- Pass 1 equals the sums, over the denoted triangle list, of the
per-triangle signed area and weighted-centroid contributions. -/
theorem pass1_eq_sums (v : List ℝ) : ∀ idx : List ℤ,
    pass1 v idx = (((trisOf v idx).map triArea).sum,
                   ((trisOf v idx).map triMx).sum,
                   ((trisOf v idx).map triMy).sum)
  | i0 :: i1 :: i2 :: rest => by
    simp only [pass1, trisOf, List.map_cons, List.sum_cons, pass1_eq_sums v rest,
      triArea, triMx, triMy, Prod.mk.injEq]
    refine ⟨by ring, by ring, by ring⟩
  | [] => rfl
  | [_] => rfl
  | [_, _] => rfl

/-- Pass 2 equals the sums, over the denoted triangle list, of the
per-triangle moment contributions. -/
theorem pass2_eq_sums (v : List ℝ) : ∀ idx : List ℤ,
    pass2 v idx = (((trisOf v idx).map triIx).sum,
                   ((trisOf v idx).map triIy).sum,
                   ((trisOf v idx).map triIxy).sum)
  | i0 :: i1 :: i2 :: rest => by
    simp only [pass2, trisOf, List.map_cons, List.sum_cons, pass2_eq_sums v rest,
      triIx, triIy, triIxy, triArea, Prod.mk.injEq]
    refine ⟨by ring, by ring, by ring⟩
  | [] => rfl
  | [_] => rfl
  | [_, _] => rfl

/-- Antisymmetry of the signed-area edge functional. -/
theorem antisym_eA : Antisym eA := fun p q => by simp only [eA]; ring

/-- Antisymmetry of the x-centroid edge functional. -/
theorem antisym_eMx : Antisym eMx := fun p q => by simp only [eMx]; ring

/-- Antisymmetry of the y-centroid edge functional. -/
theorem antisym_eMy : Antisym eMy := fun p q => by simp only [eMy]; ring

/-- Antisymmetry of the `Ix` edge functional. -/
theorem antisym_eIx : Antisym eIx := fun p q => by simp only [eIx]; ring

/-- Antisymmetry of the `Iy` edge functional. -/
theorem antisym_eIy : Antisym eIy := fun p q => by simp only [eIy]; ring

/-- Antisymmetry of the `Ixy` edge functional. -/
theorem antisym_eIxy : Antisym eIxy := fun p q => by simp only [eIxy]; ring

/-- Decomposition of a triangle's signed area into its three directed edges. -/
theorem triArea_edges (T : Tri) :
    triArea T = eA T.1 T.2.1 + eA T.2.1 T.2.2 + eA T.2.2 T.1 := by
  simp only [triArea, SignedTriangleArea, eA]; ring

/-- Decomposition of a triangle's weighted x-centroid into its edges. -/
theorem triMx_edges (T : Tri) :
    triMx T = eMx T.1 T.2.1 + eMx T.2.1 T.2.2 + eMx T.2.2 T.1 := by
  simp only [triMx, triArea, SignedTriangleArea, TriangleCentroid, eMx]; ring

/-- Decomposition of a triangle's weighted y-centroid into its edges. -/
theorem triMy_edges (T : Tri) :
    triMy T = eMy T.1 T.2.1 + eMy T.2.1 T.2.2 + eMy T.2.2 T.1 := by
  simp only [triMy, triArea, SignedTriangleArea, TriangleCentroid, eMy]; ring

/-- Decomposition of a triangle's `Ix` contribution into its edges. -/
theorem triIx_edges (T : Tri) :
    triIx T = eIx T.1 T.2.1 + eIx T.2.1 T.2.2 + eIx T.2.2 T.1 := by
  simp only [triIx, triArea, SignedTriangleArea, TriangleMomentsAboutOrigin, eIx]; ring

/-- Decomposition of a triangle's `Iy` contribution into its edges. -/
theorem triIy_edges (T : Tri) :
    triIy T = eIy T.1 T.2.1 + eIy T.2.1 T.2.2 + eIy T.2.2 T.1 := by
  simp only [triIy, triArea, SignedTriangleArea, TriangleMomentsAboutOrigin, eIy]; ring

/-- Decomposition of a triangle's `Ixy` contribution into its edges. -/
theorem triIxy_edges (T : Tri) :
    triIxy T = eIxy T.1 T.2.1 + eIxy T.2.1 T.2.2 + eIxy T.2.2 T.1 := by
  simp only [triIxy, triArea, SignedTriangleArea, TriangleMomentsAboutOrigin, eIxy]; ring

/-- Summing an edge-decomposable triangle quantity over a triangle list gives
the edge sum of its edge functional. -/
theorem sum_map_eq_edgeSum (g : Tri → ℝ) (e : Pt → Pt → ℝ)
    (h : ∀ T : Tri, g T = e T.1 T.2.1 + e T.2.1 T.2.2 + e T.2.2 T.1) :
    ∀ l : List Tri, (l.map g).sum = edgeSum e l
  | [] => rfl
  | T :: rest => by
    simp only [edgeSum, List.map_cons, List.sum_cons]
    rw [h T]
    have hr := sum_map_eq_edgeSum g e h rest
    simp only [edgeSum] at hr
    rw [hr]

/-- Meshes denoting same-chain triangle lists produce identical accumulators
in both passes of `Calculate`. -/
theorem pass_eq_of_sameChain (v1 v2 : List ℝ) (idx1 idx2 : List ℤ)
    (h : SameChain (trisOf v1 idx1) (trisOf v2 idx2)) :
    pass1 v1 idx1 = pass1 v2 idx2 ∧ pass2 v1 idx1 = pass2 v2 idx2 := by
  constructor
  · rw [pass1_eq_sums, pass1_eq_sums,
      sum_map_eq_edgeSum triArea eA triArea_edges, sum_map_eq_edgeSum triMx eMx triMx_edges,
      sum_map_eq_edgeSum triMy eMy triMy_edges, sum_map_eq_edgeSum triArea eA triArea_edges,
      sum_map_eq_edgeSum triMx eMx triMx_edges, sum_map_eq_edgeSum triMy eMy triMy_edges,
      h eA antisym_eA, h eMx antisym_eMx, h eMy antisym_eMy]
  · rw [pass2_eq_sums, pass2_eq_sums,
      sum_map_eq_edgeSum triIx eIx triIx_edges, sum_map_eq_edgeSum triIy eIy triIy_edges,
      sum_map_eq_edgeSum triIxy eIxy triIxy_edges, sum_map_eq_edgeSum triIx eIx triIx_edges,
      sum_map_eq_edgeSum triIy eIy triIy_edges, sum_map_eq_edgeSum triIxy eIxy triIxy_edges,
      h eIx antisym_eIx, h eIy antisym_eIy, h eIxy antisym_eIxy]

/-- Clockwise unit-square pass 1: everything negated. -/
theorem pass1_unit_square_cw :
    pass1 [0, 0, 1, 0, 1, 1, 0, 1] [0, 2, 1, 0, 3, 2] = (-1, -(1 / 2), -(1 / 2)) := by
  simp [pass1, triOf, vert2, SignedTriangleArea, TriangleCentroid, List.getD]
  norm_num

/-- Clockwise unit-square pass 2: everything negated. -/
theorem pass2_unit_square_cw :
    pass2 [0, 0, 1, 0, 1, 1, 0, 1] [0, 2, 1, 0, 3, 2] = (-(1 / 3), -(1 / 3), -(1 / 4)) := by
  simp [pass2, triOf, vert2, SignedTriangleArea, TriangleMomentsAboutOrigin, List.getD]
  norm_num

/-!
## Claim theorems
-/

/-- Projection: the `area` field of the nondegenerate branch. -/
theorem calcCore_area (p1 p2 : ℝ × ℝ × ℝ) : (calcCore p1 p2).area = |p1.1| := rfl

/-- Projection: the `Cx` field of the nondegenerate branch. -/
theorem calcCore_Cx (p1 p2 : ℝ × ℝ × ℝ) : (calcCore p1 p2).Cx = p1.2.1 / p1.1 := rfl

/-- Projection: the `Cy` field of the nondegenerate branch. -/
theorem calcCore_Cy (p1 p2 : ℝ × ℝ × ℝ) : (calcCore p1 p2).Cy = p1.2.2 / p1.1 := rfl

/-- Projection: the `Ix` field of the nondegenerate branch. -/
theorem calcCore_Ix (p1 p2 : ℝ × ℝ × ℝ) :
    (calcCore p1 p2).Ix = p2.1 - |p1.1| * (p1.2.2 / p1.1) * (p1.2.2 / p1.1) := rfl

/-- Projection: the `Iy` field of the nondegenerate branch. -/
theorem calcCore_Iy (p1 p2 : ℝ × ℝ × ℝ) :
    (calcCore p1 p2).Iy = p2.2.1 - |p1.1| * (p1.2.1 / p1.1) * (p1.2.1 / p1.1) := rfl

/-- Projection: the `Ixy` field of the nondegenerate branch. -/
theorem calcCore_Ixy (p1 p2 : ℝ × ℝ × ℝ) :
    (calcCore p1 p2).Ixy = p2.2.2 - |p1.1| * (p1.2.1 / p1.1) * (p1.2.2 / p1.1) := rfl

/-- Projection: the `Imin` field, in terms of the centroidal fields. -/
theorem calcCore_Imin (p1 p2 : ℝ × ℝ × ℝ) :
    (calcCore p1 p2).Imin =
      ((calcCore p1 p2).Ix + (calcCore p1 p2).Iy) / 2 -
        Real.sqrt ((((calcCore p1 p2).Ix - (calcCore p1 p2).Iy) / 2) *
            (((calcCore p1 p2).Ix - (calcCore p1 p2).Iy) / 2) +
          (calcCore p1 p2).Ixy * (calcCore p1 p2).Ixy) := rfl

/-- Projection: the `Imax` field, in terms of the centroidal fields. -/
theorem calcCore_Imax (p1 p2 : ℝ × ℝ × ℝ) :
    (calcCore p1 p2).Imax =
      ((calcCore p1 p2).Ix + (calcCore p1 p2).Iy) / 2 +
        Real.sqrt ((((calcCore p1 p2).Ix - (calcCore p1 p2).Iy) / 2) *
            (((calcCore p1 p2).Ix - (calcCore p1 p2).Iy) / 2) +
          (calcCore p1 p2).Ixy * (calcCore p1 p2).Ixy) := rfl

/-- Reversal of the winding gives an empty index array only from an empty one. -/
theorem reverseWinding_nil_iff : ∀ idx : List ℤ, reverseWinding idx = [] ↔ idx = []
  | [] => Iff.rfl
  | [_] => by simp [reverseWinding]
  | [_, _] => by simp [reverseWinding]
  | _ :: _ :: _ :: _ => by simp [reverseWinding]

/-- Reversal of the winding preserves the length of the index array. -/
theorem reverseWinding_length : ∀ idx : List ℤ, (reverseWinding idx).length = idx.length
  | [] => rfl
  | [_] => rfl
  | [_, _] => rfl
  | _ :: _ :: _ :: rest => by
    simp [reverseWinding, reverseWinding_length rest]

/-- Reversal of the winding swaps the second and third vertex of every
denoted triangle. -/
theorem trisOf_reverseWinding (v : List ℝ) : ∀ idx : List ℤ,
    trisOf v (reverseWinding idx) = (trisOf v idx).map fun T => (T.1, T.2.2, T.2.1)
  | [] => rfl
  | [_] => rfl
  | [_, _] => rfl
  | i0 :: i1 :: i2 :: rest => by
    simp [reverseWinding, trisOf, triOf, trisOf_reverseWinding v rest]

/-- Swapping two vertices negates a triangle's signed area. -/
theorem triArea_swap (T : Tri) : triArea (T.1, T.2.2, T.2.1) = -triArea T := by
  simp only [triArea, SignedTriangleArea]; ring

/-- Swapping two vertices negates a triangle's weighted x-centroid. -/
theorem triMx_swap (T : Tri) : triMx (T.1, T.2.2, T.2.1) = -triMx T := by
  simp only [triMx, triArea, SignedTriangleArea, TriangleCentroid]; ring

/-- Swapping two vertices negates a triangle's weighted y-centroid. -/
theorem triMy_swap (T : Tri) : triMy (T.1, T.2.2, T.2.1) = -triMy T := by
  simp only [triMy, triArea, SignedTriangleArea, TriangleCentroid]; ring

/-- Summing a quantity that is negated by the vertex swap over the swapped
triangle list negates the sum. -/
theorem sum_map_swap_neg (g : Tri → ℝ) (hg : ∀ T : Tri, g (T.1, T.2.2, T.2.1) = -g T) :
    ∀ l : List Tri, (((l.map fun T => (T.1, T.2.2, T.2.1)).map g)).sum = -((l.map g).sum)
  | [] => by simp
  | T :: rest => by
    simp only [List.map_cons, List.sum_cons, hg T, sum_map_swap_neg g hg rest]
    ring

/-- Pass 1 on the winding-reversed index array negates all three accumulators. -/
theorem pass1_reverseWinding (v : List ℝ) (idx : List ℤ) :
    pass1 v (reverseWinding idx) =
      (-(pass1 v idx).1, -(pass1 v idx).2.1, -(pass1 v idx).2.2) := by
  rw [pass1_eq_sums, pass1_eq_sums, trisOf_reverseWinding,
    sum_map_swap_neg triArea triArea_swap, sum_map_swap_neg triMx triMx_swap,
    sum_map_swap_neg triMy triMy_swap]

/-- Claim C1, counterexample.  The unit square triangulated counter-clockwise
(indices `0,1,2 / 0,2,3`) and the same square triangulated clockwise
(indices `0,2,1 / 0,3,2`) are two valid triangulations of the same 2D region,
each with winding consistent within itself, yet `Calculate` returns `Ix = 1/12`
for the first and `Ix = -7/12` for the second: the claim as stated (winding
only consistent *within* each triangulation, not across the two) is false. -/
theorem calculate_winding_counterexample :
    (Calculate [0, 0, 1, 0, 1, 1, 0, 1] [0, 1, 2, 0, 2, 3]).Ix ≠
      (Calculate [0, 0, 1, 0, 1, 1, 0, 1] [0, 2, 1, 0, 3, 2]).Ix := by
  have l1 : (Calculate [0, 0, 1, 0, 1, 1, 0, 1] [0, 1, 2, 0, 2, 3]).Ix = 1 / 12 := by
    rw [Calculate, if_neg (by simp), if_neg (by simp),
      if_neg (by rw [pass1_unit_square]; norm_num), pass1_unit_square, pass2_unit_square]
    norm_num [calcCore]
  have l2 : (Calculate [0, 0, 1, 0, 1, 1, 0, 1] [0, 2, 1, 0, 3, 2]).Ix = -(7 / 12) := by
    rw [Calculate, if_neg (by simp), if_neg (by simp),
      if_neg (by rw [pass1_unit_square_cw]; norm_num), pass1_unit_square_cw, pass2_unit_square_cw]
    norm_num [calcCore]
  rw [l1, l2]; norm_num

/-- Claim C1 (amended: the two triangulations must carry the same orientation,
i.e. their oriented boundary chains are equal, not opposite).  Two nonempty,
nondegenerate triangulated meshes of the same oriented 2D region — any two
triangle lists over which every antisymmetric directed-edge functional sums
equally, which holds exactly when interior edges cancel in pairs and the
oriented boundaries coincide — give identical `Calculate` results: equal
`area`, `Cx`, `Cy`, `Ix`, `Iy`, `Ixy`, `Imin`, `Imax` (and `theta`). -/
theorem calculate_triangulation_invariance
    (v1 v2 : List ℝ) (idx1 idx2 : List ℤ)
    (hv1 : v1 ≠ []) (hi1 : idx1 ≠ []) (hn1 : idx1.length / 3 ≠ 0)
    (hv2 : v2 ≠ []) (hi2 : idx2 ≠ []) (hn2 : idx2.length / 3 ≠ 0)
    (hchain : SameChain (trisOf v1 idx1) (trisOf v2 idx2))
    (hnondeg : ¬|(pass1 v1 idx1).1| < 1e-15) :
    Calculate v1 idx1 = Calculate v2 idx2 := by
  obtain ⟨hp1, hp2⟩ := pass_eq_of_sameChain v1 v2 idx1 idx2 hchain
  rw [Calculate, Calculate,
    if_neg (show ¬(v1 = [] ∨ idx1 = []) by simp [hv1, hi1]),
    if_neg (show ¬(v2 = [] ∨ idx2 = []) by simp [hv2, hi2]),
    if_neg hn1, if_neg hn2, if_neg hnondeg, if_neg (hp1 ▸ hnondeg), hp1, hp2]

/-- Witness for C1: the unit square triangulated along the two different
diagonals (fan from vertex 0 vs fan from vertex 1), both counter-clockwise. -/
theorem calculate_triangulation_invariance_witness :
    Calculate [0, 0, 1, 0, 1, 1, 0, 1] [0, 1, 2, 0, 2, 3] =
      Calculate [0, 0, 1, 0, 1, 1, 0, 1] [1, 2, 3, 1, 3, 0] := by
  refine calculate_triangulation_invariance _ _ _ _ (by simp) (by simp) (by simp)
    (by simp) (by simp) (by simp) ?_ (by rw [pass1_unit_square]; norm_num)
  intro f hf
  simp [trisOf, triOf, vert2, edgeSum]
  have h1 := hf (1 : ℝ × ℝ) (0 : ℝ × ℝ)
  have h2 := hf ((0 : ℝ), (1 : ℝ)) ((1 : ℝ), (0 : ℝ))
  linarith

/-- Claim C2: on the unit square `(0,0),(1,0),(1,1),(0,1)` triangulated as
`(0,1,2)` and `(0,2,3)`, `Calculate` returns `area = 1`, centroid
`(1/2, 1/2)`, `Ix = Iy = 1/12`, `Ixy = 0`, `Imin = Imax = 1/12`, and
`theta = 0` through the special isotropic branch
(`|Ixy| < 1e-15` and `|Idiff| < 1e-15`). -/
theorem calculate_unit_square :
    Calculate [0, 0, 1, 0, 1, 1, 0, 1] [0, 1, 2, 0, 2, 3] =
      { area := 1, Cx := 1 / 2, Cy := 1 / 2, Ix := 1 / 12, Iy := 1 / 12, Ixy := 0,
        Imin := 1 / 12, Imax := 1 / 12, theta := 0 } := by
  rw [Calculate, if_neg (by simp), if_neg (by simp),
    if_neg (by rw [pass1_unit_square]; norm_num), pass1_unit_square, pass2_unit_square]
  norm_num [calcCore, Real.sqrt_zero]

/-- Claim C3: `Calculate` returns the all-zero result record whenever the
vertex list is empty, the index list is empty, the triangle count
`indices.size() / 3` is zero, or the total signed area has magnitude below
1e-15; the all-zero record is the only degenerate signal (the embedded
function is total — the source never throws). -/
theorem calculate_degenerate_zero (v : List ℝ) (idx : List ℤ)
    (h : v = [] ∨ idx = [] ∨ idx.length / 3 = 0 ∨ |(pass1 v idx).1| < 1e-15) :
    Calculate v idx =
      { area := 0, Cx := 0, Cy := 0, Ix := 0, Iy := 0, Ixy := 0,
        Imin := 0, Imax := 0, theta := 0 } := by
  rw [Calculate]
  split_ifs with h1 h2 h3
  · rfl
  · rfl
  · rfl
  · exfalso
    rcases h with h | h | h | h
    · exact h1 (Or.inl h)
    · exact h1 (Or.inr h)
    · exact h2 h
    · exact h3 h

/-- Witness for C3: the empty mesh yields the all-zero record. -/
theorem calculate_degenerate_zero_witness :
    Calculate [] [] =
      { area := 0, Cx := 0, Cy := 0, Ix := 0, Iy := 0, Ixy := 0,
        Imin := 0, Imax := 0, theta := 0 } :=
  calculate_degenerate_zero [] [] (Or.inl rfl)

/-- Helper: subtracting a square root is below adding it. -/
theorem sub_sqrt_le_add_sqrt (a b : ℝ) : a - Real.sqrt b ≤ a + Real.sqrt b := by
  have := Real.sqrt_nonneg b; linarith

/-- Claim C8: for every input, the result of `Calculate` has `area ≥ 0`
(it is the magnitude of the total signed area, or 0 in the degenerate
branches) and `Imin ≤ Imax` (they are `Iavg ∓ R` with
`R = sqrt(Idiff² + Ixy²) ≥ 0`). -/
theorem calculate_area_nonneg_Imin_le_Imax (v : List ℝ) (idx : List ℤ) :
    0 ≤ (Calculate v idx).area ∧ (Calculate v idx).Imin ≤ (Calculate v idx).Imax := by
  rw [Calculate]
  split_ifs with h1 h2 h3
  · exact ⟨le_rfl, le_rfl⟩
  · exact ⟨le_rfl, le_rfl⟩
  · exact ⟨le_rfl, le_rfl⟩
  · exact ⟨abs_nonneg _, sub_sqrt_le_add_sqrt _ _⟩

/-- Claim C5: reversing the winding of every triangle (swapping the second and
third index of each triple, which negates every signed triangle area) leaves
the `area`, `Cx` and `Cy` fields of `Calculate` unchanged — the sign cancels
between the weighted-centroid numerator and the signed-area denominator, and
`area = |totalSignedArea|` is sign-blind.  (Proved for every mesh, so in
particular for consistently wound ones with `|totalSignedArea| ≥ 1e-15`; in
the degenerate branches both sides are the zero record.) -/
theorem calculate_winding_reversal (v : List ℝ) (idx : List ℤ) :
    (Calculate v (reverseWinding idx)).area = (Calculate v idx).area ∧
    (Calculate v (reverseWinding idx)).Cx = (Calculate v idx).Cx ∧
    (Calculate v (reverseWinding idx)).Cy = (Calculate v idx).Cy := by
  rw [Calculate, Calculate]
  by_cases hv : v = [] ∨ idx = []
  · rw [if_pos, if_pos hv]
    · exact ⟨rfl, rfl, rfl⟩
    · rcases hv with h | h
      · exact Or.inl h
      · exact Or.inr ((reverseWinding_nil_iff idx).2 h)
  · rw [if_neg, if_neg hv]
    swap
    · intro h
      rcases h with h | h
      · exact hv (Or.inl h)
      · exact hv (Or.inr ((reverseWinding_nil_iff idx).1 h))
    rw [reverseWinding_length]
    by_cases hn : idx.length / 3 = 0
    · rw [if_pos hn, if_pos hn]
      exact ⟨rfl, rfl, rfl⟩
    · rw [if_neg hn, if_neg hn, pass1_reverseWinding, abs_neg]
      by_cases hd : |(pass1 v idx).1| < 1e-15
      · rw [if_pos hd, if_pos hd]
        exact ⟨rfl, rfl, rfl⟩
      · rw [if_neg hd, if_neg hd]
        refine ⟨?_, ?_, ?_⟩
        · rw [calcCore_area, calcCore_area]
          exact abs_neg _
        · rw [calcCore_Cx, calcCore_Cx]
          exact neg_div_neg_eq _ _
        · rw [calcCore_Cy, calcCore_Cy]
          exact neg_div_neg_eq _ _

/-- Claim C6: `CalculateNormal` returns the default `(0,0,1)` whenever there
are fewer than 3 indices or fewer than 9 vertex coordinates, and otherwise
the normalized cross product of the first indexed triangle's edge vectors
`(v1-v0) × (v2-v0)` — only the first triangle matters; in particular on the
triangle `(0,0,0),(1,0,0),(0,1,0)` with indices `0,1,2` it returns `(0,0,1)`. -/
theorem calculateNormal_spec :
    (∀ (v : List ℝ) (idx : List ℤ),
        CalculateNormal v idx =
          if idx.length < 3 ∨ v.length < 9 then (⟨0, 0, 1⟩ : Vector3D)
          else
            (((vert3 v (idx.getD 1 0)).sub (vert3 v (idx.getD 0 0))).Cross
              ((vert3 v (idx.getD 2 0)).sub (vert3 v (idx.getD 0 0)))).Normalize) ∧
    CalculateNormal [0, 0, 0, 1, 0, 0, 0, 1, 0] [0, 1, 2] = ⟨0, 0, 1⟩ := by
  constructor
  · intro v idx
    rfl
  · rw [CalculateNormal, if_neg (by simp)]
    simp [vert3, Vector3D.sub, Vector3D.Cross, Vector3D.Normalize, Vector3D.Length, List.getD]
    norm_num

/-- Length of the projection loop's output: two coordinates per input vertex,
`2 · ⌊n/3⌋` in total. -/
theorem projectWithBasis_length (o xA yA : Vector3D) : ∀ v3 : List ℝ,
    (projectWithBasis o xA yA v3).length = 2 * (v3.length / 3)
  | _ :: _ :: _ :: rest => by
    simp [projectWithBasis, projectWithBasis_length o xA yA rest]
    omega
  | [] => rfl
  | [_] => by simp [projectWithBasis]
  | [_, _] => by simp [projectWithBasis]

/-- Entries of the projection loop's output: the pair at position `i` is the
dot product of the translated `i`-th input vertex with the two axes. -/
theorem projectWithBasis_getD (o xA yA : Vector3D) :
    ∀ (v3 : List ℝ) (i : ℕ), i < v3.length / 3 →
      (projectWithBasis o xA yA v3).getD (2 * i) 0 =
        ((Vector3D.mk (v3.getD (3 * i) 0) (v3.getD (3 * i + 1) 0)
          (v3.getD (3 * i + 2) 0)).sub o).Dot xA ∧
      (projectWithBasis o xA yA v3).getD (2 * i + 1) 0 =
        ((Vector3D.mk (v3.getD (3 * i) 0) (v3.getD (3 * i + 1) 0)
          (v3.getD (3 * i + 2) 0)).sub o).Dot yA
  | x :: y :: z :: rest, 0, _ => by
    simp [projectWithBasis, List.getD]
  | x :: y :: z :: rest, i + 1, hi => by
    have hi' : i < rest.length / 3 := by
      simp only [List.length_cons] at hi
      omega
    have ih := projectWithBasis_getD o xA yA rest i hi'
    have e2 : 2 * (i + 1) = 2 * i + 1 + 1 := by ring
    have e3 : 3 * (i + 1) = 3 * i + 1 + 1 + 1 := by ring
    simpa [projectWithBasis, e2, e3, List.getD] using ih
  | [], i, hi => by
    simp only [List.length_nil] at hi
    omega
  | [_], i, hi => by
    simp only [List.length_cons, List.length_nil] at hi
    omega
  | [_, _], i, hi => by
    simp only [List.length_cons, List.length_nil] at hi
    omega

/-- Claim C7: `ProjectTo2D` builds `zAxis = normalize(normal)`, takes
`xAxis = normalize(globalY × zAxis)` when `|zAxis·globalY| < 0.9` and
`normalize(zAxis × globalX)` otherwise, completes with
`yAxis = normalize(zAxis × xAxis)`, and emits, for each input vertex `v`
in original order, the pair `((v-origin)·xAxis, (v-origin)·yAxis)` — so the
output has exactly `2·⌊|vertices3D|/3⌋` values. -/
theorem projectTo2D_spec (v3 : List ℝ) (normal origin : Vector3D) :
    (ProjectTo2D v3 normal origin).length = 2 * (v3.length / 3) ∧
    (∀ i : ℕ, i < v3.length / 3 →
      (ProjectTo2D v3 normal origin).getD (2 * i) 0 =
        ((Vector3D.mk (v3.getD (3 * i) 0) (v3.getD (3 * i + 1) 0)
            (v3.getD (3 * i + 2) 0)).sub origin).Dot
          (if |normal.Normalize.Dot ⟨0, 1, 0⟩| < 0.9
           then ((Vector3D.mk 0 1 0).Cross normal.Normalize).Normalize
           else (normal.Normalize.Cross ⟨1, 0, 0⟩).Normalize) ∧
      (ProjectTo2D v3 normal origin).getD (2 * i + 1) 0 =
        ((Vector3D.mk (v3.getD (3 * i) 0) (v3.getD (3 * i + 1) 0)
            (v3.getD (3 * i + 2) 0)).sub origin).Dot
          ((normal.Normalize.Cross
            (if |normal.Normalize.Dot ⟨0, 1, 0⟩| < 0.9
             then ((Vector3D.mk 0 1 0).Cross normal.Normalize).Normalize
             else (normal.Normalize.Cross ⟨1, 0, 0⟩).Normalize)).Normalize)) := by
  by_cases hv : v3 = []
  · subst hv
    refine ⟨rfl, ?_⟩
    intro i hi
    simp at hi
  · rw [ProjectTo2D, if_neg hv]
    exact ⟨projectWithBasis_length _ _ _ v3, fun i hi => projectWithBasis_getD _ _ _ v3 i hi⟩

/-- Characterisation of `ProjectTo2D` as the projection loop applied with the
basis the function computes (the branch on the empty vertex list is
redundant, since the loop emits nothing there). -/
theorem projectTo2D_eq_projectWithBasis (v3 : List ℝ) (normal origin : Vector3D) :
    ProjectTo2D v3 normal origin =
      projectWithBasis origin
        (if |normal.Normalize.Dot ⟨0, 1, 0⟩| < 0.9
         then ((Vector3D.mk 0 1 0).Cross normal.Normalize).Normalize
         else (normal.Normalize.Cross ⟨1, 0, 0⟩).Normalize)
        ((normal.Normalize.Cross
          (if |normal.Normalize.Dot ⟨0, 1, 0⟩| < 0.9
           then ((Vector3D.mk 0 1 0).Cross normal.Normalize).Normalize
           else (normal.Normalize.Cross ⟨1, 0, 0⟩).Normalize)).Normalize) v3 := by
  by_cases hv : v3 = []
  · subst hv
    rfl
  · rw [ProjectTo2D, if_neg hv]

/-- Rotation of a flat vertex array is empty only for the empty array. -/
theorem rot2_nil_iff (c s : ℝ) : ∀ l : List ℝ, rot2 c s l = [] ↔ l = []
  | [] => Iff.rfl
  | [_] => by simp [rot2]
  | _ :: _ :: _ => by simp [rot2]

/-- Entries of a rotated even-length vertex array. -/
theorem rot2_getD (c s : ℝ) :
    ∀ (l : List ℝ) (k : ℕ), l.length % 2 = 0 →
      (rot2 c s l).getD (2 * k) 0 = c * l.getD (2 * k) 0 + s * l.getD (2 * k + 1) 0 ∧
      (rot2 c s l).getD (2 * k + 1) 0 = -s * l.getD (2 * k) 0 + c * l.getD (2 * k + 1) 0
  | [], k, _ => by simp [rot2]
  | [_], k, h => by simp at h
  | x :: y :: rest, 0, _ => by simp [rot2, List.getD]
  | x :: y :: rest, k + 1, h => by
    have h' : rest.length % 2 = 0 := by
      simp only [List.length_cons] at h
      omega
    have ih := rot2_getD c s rest k h'
    have e2 : 2 * (k + 1) = 2 * k + 1 + 1 := by ring
    simpa [rot2, e2, List.getD] using ih

/-- Mesh vertices of a rotated even-length vertex array are the rotated
mesh vertices. -/
theorem vert2_rot2 (c s : ℝ) (w : List ℝ) (hw : w.length % 2 = 0) (i : ℤ) :
    vert2 (rot2 c s w) i = rotPt c s (vert2 w i) := by
  obtain ⟨h0, h1⟩ := rot2_getD c s w i.toNat hw
  simp only [vert2, rotPt, Nat.mul_comm i.toNat 2] at *
  rw [h0, h1]

/-- Triangles denoted by a rotated even-length vertex array are the rotated
triangles. -/
theorem trisOf_rot2 (c s : ℝ) (w : List ℝ) (hw : w.length % 2 = 0) :
    ∀ idx : List ℤ, trisOf (rot2 c s w) idx = (trisOf w idx).map (rotTri c s)
  | [] => rfl
  | [_] => rfl
  | [_, _] => rfl
  | i0 :: i1 :: i2 :: rest => by
    simp [trisOf, triOf, vert2_rot2 c s w hw, rotTri, trisOf_rot2 c s w hw rest]

/-- Projection onto a rotated basis is the rotation of the projection. -/
theorem projectWithBasis_rot (o xA yA : Vector3D) (c s : ℝ) : ∀ v3 : List ℝ,
    projectWithBasis o ((xA.smul c).add (yA.smul s)) ((xA.smul (-s)).add (yA.smul c)) v3 =
      rot2 c s (projectWithBasis o xA yA v3)
  | x :: y :: z :: rest => by
    simp only [projectWithBasis, rot2, projectWithBasis_rot o xA yA c s rest,
      List.cons.injEq]
    refine ⟨?_, ?_, trivial⟩ <;>
      simp only [Vector3D.Dot, Vector3D.smul, Vector3D.add, Vector3D.sub] <;> ring
  | [] => rfl
  | [_] => rfl
  | [_, _] => rfl

/-- Componentwise equality of real triples. -/
theorem triple_eq {a a' b b' d d' : ℝ} (h1 : a = a') (h2 : b = b') (h3 : d = d') :
    (a, b, d) = (a', b', d') := by rw [h1, h2, h3]

/-- Unconstrained rotation identity for the signed area: a factor `c² + s²`
appears. -/
theorem triArea_rot' (c s : ℝ) (T : Tri) :
    triArea (rotTri c s T) = (c ^ 2 + s ^ 2) * triArea T := by
  simp only [triArea, rotTri, rotPt, SignedTriangleArea]; ring

/-- Unconstrained rotation identity for the weighted centroid contributions. -/
theorem triMx_rot' (c s : ℝ) (T : Tri) :
    triMx (rotTri c s T) = (c ^ 2 + s ^ 2) * (c * triMx T + s * triMy T) := by
  simp only [triMx, triMy, triArea, rotTri, rotPt, SignedTriangleArea, TriangleCentroid]; ring

/-- Unconstrained rotation identity for the weighted centroid contributions. -/
theorem triMy_rot' (c s : ℝ) (T : Tri) :
    triMy (rotTri c s T) = (c ^ 2 + s ^ 2) * (-s * triMx T + c * triMy T) := by
  simp only [triMx, triMy, triArea, rotTri, rotPt, SignedTriangleArea, TriangleCentroid]; ring

/-- Unconstrained rotation identity for the per-triangle `Ix` contribution. -/
theorem triIx_rot' (c s : ℝ) (T : Tri) :
    triIx (rotTri c s T) =
      (c ^ 2 + s ^ 2) *
        (c ^ 2 * triIx T + s ^ 2 * triIy T - 2 * c * s * triIxy T) := by
  simp only [triIx, triIy, triIxy, triArea, rotTri, rotPt, SignedTriangleArea,
    TriangleMomentsAboutOrigin]; ring

/-- Unconstrained rotation identity for the per-triangle `Iy` contribution. -/
theorem triIy_rot' (c s : ℝ) (T : Tri) :
    triIy (rotTri c s T) =
      (c ^ 2 + s ^ 2) *
        (s ^ 2 * triIx T + c ^ 2 * triIy T + 2 * c * s * triIxy T) := by
  simp only [triIx, triIy, triIxy, triArea, rotTri, rotPt, SignedTriangleArea,
    TriangleMomentsAboutOrigin]; ring

/-- Unconstrained rotation identity for the per-triangle `Ixy` contribution. -/
theorem triIxy_rot' (c s : ℝ) (T : Tri) :
    triIxy (rotTri c s T) =
      (c ^ 2 + s ^ 2) *
        (c * s * (triIx T - triIy T) + (c ^ 2 - s ^ 2) * triIxy T) := by
  simp only [triIx, triIy, triIxy, triArea, rotTri, rotPt, SignedTriangleArea,
    TriangleMomentsAboutOrigin]; ring

/-- Sums over a mapped list of a pointwise-equal function agree. -/
theorem sum_map_ext (g k : Tri → ℝ) (e : ∀ T : Tri, g T = k T) :
    ∀ l : List Tri, (l.map g).sum = (l.map k).sum
  | [] => rfl
  | T :: rest => by
    simp only [List.map_cons, List.sum_cons, e T, sum_map_ext g k e rest]

/-- Sum of a linear combination of three triangle quantities. -/
theorem sum_map_lin3 (g k m : Tri → ℝ) (a b d : ℝ) :
    ∀ l : List Tri,
      (l.map fun T => a * g T + b * k T + d * m T).sum =
        a * (l.map g).sum + b * (l.map k).sum + d * (l.map m).sum
  | [] => by simp
  | T :: rest => by
    simp only [List.map_cons, List.sum_cons, sum_map_lin3 g k m a b d rest]
    ring

/-- Pass 1 on a rotated even-length vertex array: the signed area is
unchanged; the weighted centroid sums rotate (`c² + s² = 1`). -/
theorem pass1_rot2 (c s : ℝ) (h : c ^ 2 + s ^ 2 = 1) (w : List ℝ)
    (hw : w.length % 2 = 0) (idx : List ℤ) :
    pass1 (rot2 c s w) idx =
      ((pass1 w idx).1,
       c * (pass1 w idx).2.1 + s * (pass1 w idx).2.2,
       -s * (pass1 w idx).2.1 + c * (pass1 w idx).2.2) := by
  rw [pass1_eq_sums, pass1_eq_sums, trisOf_rot2 c s w hw, List.map_map, List.map_map,
    List.map_map]
  have hA : ∀ T : Tri, (triArea ∘ rotTri c s) T = triArea T := fun T => by
    simp only [Function.comp_apply, triArea_rot' c s T, h, one_mul]
  have hMx : ∀ T : Tri, (triMx ∘ rotTri c s) T = c * triMx T + s * triMy T + 0 * triMy T :=
    fun T => by simp only [Function.comp_apply, triMx_rot' c s T, h, one_mul]; ring
  have hMy : ∀ T : Tri, (triMy ∘ rotTri c s) T = -s * triMx T + c * triMy T + 0 * triMy T :=
    fun T => by simp only [Function.comp_apply, triMy_rot' c s T, h, one_mul]; ring
  rw [sum_map_ext _ _ hA, sum_map_ext _ _ hMx, sum_map_ext _ _ hMy,
    sum_map_lin3 triMx triMy triMy c s 0, sum_map_lin3 triMx triMy triMy (-s) c 0]
  exact triple_eq rfl (by ring) (by ring)

/-- Pass 2 on a rotated even-length vertex array: the moments about the
origin transform as a symmetric 2-tensor (`c² + s² = 1`). -/
theorem pass2_rot2 (c s : ℝ) (h : c ^ 2 + s ^ 2 = 1) (w : List ℝ)
    (hw : w.length % 2 = 0) (idx : List ℤ) :
    pass2 (rot2 c s w) idx =
      (c ^ 2 * (pass2 w idx).1 + s ^ 2 * (pass2 w idx).2.1 -
         2 * c * s * (pass2 w idx).2.2,
       s ^ 2 * (pass2 w idx).1 + c ^ 2 * (pass2 w idx).2.1 +
         2 * c * s * (pass2 w idx).2.2,
       c * s * ((pass2 w idx).1 - (pass2 w idx).2.1) +
         (c ^ 2 - s ^ 2) * (pass2 w idx).2.2) := by
  rw [pass2_eq_sums, pass2_eq_sums, trisOf_rot2 c s w hw, List.map_map, List.map_map,
    List.map_map]
  have hIx : ∀ T : Tri, (triIx ∘ rotTri c s) T =
      c ^ 2 * triIx T + s ^ 2 * triIy T + -(2 * c * s) * triIxy T :=
    fun T => by simp only [Function.comp_apply, triIx_rot' c s T, h, one_mul]; ring
  have hIy : ∀ T : Tri, (triIy ∘ rotTri c s) T =
      s ^ 2 * triIx T + c ^ 2 * triIy T + 2 * c * s * triIxy T :=
    fun T => by simp only [Function.comp_apply, triIy_rot' c s T, h, one_mul]
  have hIxy : ∀ T : Tri, (triIxy ∘ rotTri c s) T =
      c * s * triIx T + -(c * s) * triIy T + (c ^ 2 - s ^ 2) * triIxy T :=
    fun T => by simp only [Function.comp_apply, triIxy_rot' c s T, h, one_mul]; ring
  rw [sum_map_ext _ _ hIx, sum_map_ext _ _ hIy, sum_map_ext _ _ hIxy,
    sum_map_lin3 triIx triIy triIxy (c ^ 2) (s ^ 2) (-(2 * c * s)),
    sum_map_lin3 triIx triIy triIxy (s ^ 2) (c ^ 2) (2 * c * s),
    sum_map_lin3 triIx triIy triIxy (c * s) (-(c * s)) (c ^ 2 - s ^ 2)]
  exact triple_eq (by ring) (by ring) (by ring)

/-- Invariants of a symmetric 2-tensor under rotation: the trace and the
squared deviatoric norm are preserved (`c² + s² = 1`). -/
theorem tensor_invariants (c s X Y P : ℝ) (h : c ^ 2 + s ^ 2 = 1) :
    (c ^ 2 * X + s ^ 2 * Y - 2 * c * s * P) + (s ^ 2 * X + c ^ 2 * Y + 2 * c * s * P) =
      X + Y ∧
    (((c ^ 2 * X + s ^ 2 * Y - 2 * c * s * P) -
          (s ^ 2 * X + c ^ 2 * Y + 2 * c * s * P)) / 2) *
        (((c ^ 2 * X + s ^ 2 * Y - 2 * c * s * P) -
          (s ^ 2 * X + c ^ 2 * Y + 2 * c * s * P)) / 2) +
      (c * s * (X - Y) + (c ^ 2 - s ^ 2) * P) * (c * s * (X - Y) + (c ^ 2 - s ^ 2) * P) =
        ((X - Y) / 2) * ((X - Y) / 2) + P * P := by
  constructor
  · linear_combination (X + Y) * h
  · linear_combination
      ((c ^ 2 + s ^ 2 + 1) * (((X - Y) / 2) * ((X - Y) / 2) + P * P)) * h

/-- Principal moments of the nondegenerate branch are invariant under a
rotation of the accumulators (`c² + s² = 1`). -/
theorem calcCore_rot_invariant (c s : ℝ) (h : c ^ 2 + s ^ 2 = 1)
    (S Mx My Jx Jy Jxy : ℝ) :
    ((calcCore (S, c * Mx + s * My, -s * Mx + c * My)
        (c ^ 2 * Jx + s ^ 2 * Jy - 2 * c * s * Jxy,
         s ^ 2 * Jx + c ^ 2 * Jy + 2 * c * s * Jxy,
         c * s * (Jx - Jy) + (c ^ 2 - s ^ 2) * Jxy)).Imin =
      (calcCore (S, Mx, My) (Jx, Jy, Jxy)).Imin) ∧
    ((calcCore (S, c * Mx + s * My, -s * Mx + c * My)
        (c ^ 2 * Jx + s ^ 2 * Jy - 2 * c * s * Jxy,
         s ^ 2 * Jx + c ^ 2 * Jy + 2 * c * s * Jxy,
         c * s * (Jx - Jy) + (c ^ 2 - s ^ 2) * Jxy)).Imax =
      (calcCore (S, Mx, My) (Jx, Jy, Jxy)).Imax) := by
  have eIx2 : (calcCore (S, c * Mx + s * My, -s * Mx + c * My)
      (c ^ 2 * Jx + s ^ 2 * Jy - 2 * c * s * Jxy,
       s ^ 2 * Jx + c ^ 2 * Jy + 2 * c * s * Jxy,
       c * s * (Jx - Jy) + (c ^ 2 - s ^ 2) * Jxy)).Ix =
      c ^ 2 * (Jx - |S| * (My / S) * (My / S)) + s ^ 2 * (Jy - |S| * (Mx / S) * (Mx / S)) -
        2 * c * s * (Jxy - |S| * (Mx / S) * (My / S)) := by
    rw [calcCore_Ix]; ring
  have eIy2 : (calcCore (S, c * Mx + s * My, -s * Mx + c * My)
      (c ^ 2 * Jx + s ^ 2 * Jy - 2 * c * s * Jxy,
       s ^ 2 * Jx + c ^ 2 * Jy + 2 * c * s * Jxy,
       c * s * (Jx - Jy) + (c ^ 2 - s ^ 2) * Jxy)).Iy =
      s ^ 2 * (Jx - |S| * (My / S) * (My / S)) + c ^ 2 * (Jy - |S| * (Mx / S) * (Mx / S)) +
        2 * c * s * (Jxy - |S| * (Mx / S) * (My / S)) := by
    rw [calcCore_Iy]; ring
  have eIxy2 : (calcCore (S, c * Mx + s * My, -s * Mx + c * My)
      (c ^ 2 * Jx + s ^ 2 * Jy - 2 * c * s * Jxy,
       s ^ 2 * Jx + c ^ 2 * Jy + 2 * c * s * Jxy,
       c * s * (Jx - Jy) + (c ^ 2 - s ^ 2) * Jxy)).Ixy =
      c * s * ((Jx - |S| * (My / S) * (My / S)) - (Jy - |S| * (Mx / S) * (Mx / S))) +
        (c ^ 2 - s ^ 2) * (Jxy - |S| * (Mx / S) * (My / S)) := by
    rw [calcCore_Ixy]; ring
  have eIx1 : (calcCore (S, Mx, My) (Jx, Jy, Jxy)).Ix =
      Jx - |S| * (My / S) * (My / S) := calcCore_Ix _ _
  have eIy1 : (calcCore (S, Mx, My) (Jx, Jy, Jxy)).Iy =
      Jy - |S| * (Mx / S) * (Mx / S) := calcCore_Iy _ _
  have eIxy1 : (calcCore (S, Mx, My) (Jx, Jy, Jxy)).Ixy =
      Jxy - |S| * (Mx / S) * (My / S) := calcCore_Ixy _ _
  obtain ⟨hsum, harg⟩ := tensor_invariants c s
    (Jx - |S| * (My / S) * (My / S)) (Jy - |S| * (Mx / S) * (Mx / S))
    (Jxy - |S| * (Mx / S) * (My / S)) h
  constructor
  · rw [calcCore_Imin, calcCore_Imin, eIx2, eIy2, eIxy2, eIx1, eIy1, eIxy1, hsum, harg]
  · rw [calcCore_Imax, calcCore_Imax, eIx2, eIy2, eIxy2, eIx1, eIy1, eIxy1, hsum, harg]

/-- Claim C4: for any planar mesh projected with `projectWithBasis` (the
projection loop of `ProjectTo2D`), replacing the in-plane basis `(xAxis,
yAxis)` by any rotation of it about the normal
(`xAxis' = c·xAxis + s·yAxis`, `yAxis' = -s·xAxis + c·yAxis` with
`c² + s² = 1`) leaves the `Imin` and `Imax` fields of `Calculate` on the
projected mesh unchanged, even though `theta`, `Cx`, `Cy` are
basis-dependent. -/
theorem calculate_Imin_Imax_basis_invariance
    (v3 : List ℝ) (o xA yA : Vector3D) (idx : List ℤ) (c s : ℝ)
    (h : c ^ 2 + s ^ 2 = 1) :
    ((Calculate (projectWithBasis o ((xA.smul c).add (yA.smul s))
        ((xA.smul (-s)).add (yA.smul c)) v3) idx).Imin =
      (Calculate (projectWithBasis o xA yA v3) idx).Imin) ∧
    ((Calculate (projectWithBasis o ((xA.smul c).add (yA.smul s))
        ((xA.smul (-s)).add (yA.smul c)) v3) idx).Imax =
      (Calculate (projectWithBasis o xA yA v3) idx).Imax) := by
  have hw : (projectWithBasis o xA yA v3).length % 2 = 0 := by
    rw [projectWithBasis_length]; omega
  rw [projectWithBasis_rot]
  rw [Calculate, Calculate]
  by_cases hv : projectWithBasis o xA yA v3 = [] ∨ idx = []
  · rw [if_pos, if_pos hv]
    · exact ⟨rfl, rfl⟩
    · rcases hv with hv | hv
      · exact Or.inl ((rot2_nil_iff c s _).2 hv)
      · exact Or.inr hv
  · rw [if_neg, if_neg hv]
    swap
    · intro hcon
      rcases hcon with hcon | hcon
      · exact hv (Or.inl ((rot2_nil_iff c s _).1 hcon))
      · exact hv (Or.inr hcon)
    by_cases hn : idx.length / 3 = 0
    · rw [if_pos hn, if_pos hn]
      exact ⟨rfl, rfl⟩
    · rw [if_neg hn, if_neg hn]
      have hfst : (pass1 (rot2 c s (projectWithBasis o xA yA v3)) idx).1 =
          (pass1 (projectWithBasis o xA yA v3) idx).1 := by
        rw [pass1_rot2 c s h _ hw idx]
      rw [hfst]
      by_cases hd : |(pass1 (projectWithBasis o xA yA v3) idx).1| < 1e-15
      · rw [if_pos hd, if_pos hd]
        exact ⟨rfl, rfl⟩
      · rw [if_neg hd, if_neg hd, pass1_rot2 c s h _ hw idx, pass2_rot2 c s h _ hw idx]
        exact calcCore_rot_invariant c s h
          (pass1 (projectWithBasis o xA yA v3) idx).1
          (pass1 (projectWithBasis o xA yA v3) idx).2.1
          (pass1 (projectWithBasis o xA yA v3) idx).2.2
          (pass2 (projectWithBasis o xA yA v3) idx).1
          (pass2 (projectWithBasis o xA yA v3) idx).2.1
          (pass2 (projectWithBasis o xA yA v3) idx).2.2

/-- Witness for C4: a quarter-turn of the in-plane basis (`c = 0`, `s = 1`)
on the projected triangle `(0,0,0),(1,0,0),(0,1,0)`. -/
theorem calculate_Imin_Imax_basis_invariance_witness :
    (Calculate (projectWithBasis ⟨0, 0, 0⟩
        (((Vector3D.mk 1 0 0).smul 0).add ((Vector3D.mk 0 1 0).smul 1))
        (((Vector3D.mk 1 0 0).smul (-1)).add ((Vector3D.mk 0 1 0).smul 0))
        [0, 0, 0, 1, 0, 0, 0, 1, 0]) [0, 1, 2]).Imin =
      (Calculate (projectWithBasis ⟨0, 0, 0⟩ ⟨1, 0, 0⟩ ⟨0, 1, 0⟩
        [0, 0, 0, 1, 0, 0, 0, 1, 0]) [0, 1, 2]).Imin :=
  (calculate_Imin_Imax_basis_invariance [0, 0, 0, 1, 0, 0, 0, 1, 0] ⟨0, 0, 0⟩
    ⟨1, 0, 0⟩ ⟨0, 1, 0⟩ [0, 1, 2] 0 1 (by norm_num)).1

/-- Witness for C7: the first projected coordinate of the triangle
`(0,0,0),(1,0,0),(0,1,0)` about origin `(0,0,0)` is 0. -/
theorem projectTo2D_spec_witness :
    (ProjectTo2D [0, 0, 0, 1, 0, 0, 0, 1, 0] ⟨0, 0, 1⟩ ⟨0, 0, 0⟩).getD 0 0 = 0 := by
  have h := ((projectTo2D_spec [0, 0, 0, 1, 0, 0, 0, 1, 0] ⟨0, 0, 1⟩ ⟨0, 0, 0⟩).2 0
    (by norm_num)).1
  simpa [Vector3D.sub, Vector3D.Dot, List.getD] using h

/-- Claim C9: in the derived section-property stage, `Rx`/`Ry` are
`sqrt(Ix/area)`/`sqrt(Iy/area)` exactly when `area > 1e-10` and remain at
their zero initialisation otherwise, and `Sx_min`/`Sy_min` are
`Ix/cy_max`/`Iy/cx_max` exactly when the respective extreme-fiber distance
exceeds 1e-10 and remain zero otherwise — every division is guarded by a
strict `> 1e-10` test on its denominator, so no sub-threshold denominator
is ever used (and in this exact-real model no NaN or exception exists to
be produced). -/
theorem derived_stage_epsilon_guards (v : List ℝ) (idx : List ℤ) (per : ℝ) :
    ((CalculateFaceDerived v idx per).Rx =
      if (Calculate v idx).area > 1e-10
      then Real.sqrt ((Calculate v idx).Ix / (Calculate v idx).area) else 0) ∧
    ((CalculateFaceDerived v idx per).Ry =
      if (Calculate v idx).area > 1e-10
      then Real.sqrt ((Calculate v idx).Iy / (Calculate v idx).area) else 0) ∧
    ((CalculateFaceDerived v idx per).Sx_min =
      if (CalculateFaceDerived v idx per).cy_max > 1e-10
      then (Calculate v idx).Ix / (CalculateFaceDerived v idx per).cy_max else 0) ∧
    ((CalculateFaceDerived v idx per).Sy_min =
      if (CalculateFaceDerived v idx per).cx_max > 1e-10
      then (Calculate v idx).Iy / (CalculateFaceDerived v idx per).cx_max else 0) ∧
    ((Calculate v idx).area ≤ 1e-10 →
      (CalculateFaceDerived v idx per).Rx = 0 ∧ (CalculateFaceDerived v idx per).Ry = 0) ∧
    ((CalculateFaceDerived v idx per).cy_max ≤ 1e-10 →
      (CalculateFaceDerived v idx per).Sx_min = 0) ∧
    ((CalculateFaceDerived v idx per).cx_max ≤ 1e-10 →
      (CalculateFaceDerived v idx per).Sy_min = 0) := by
  refine ⟨rfl, rfl, rfl, rfl, ?_, ?_, ?_⟩
  · intro h
    constructor
    · show (if (Calculate v idx).area > 1e-10
          then Real.sqrt ((Calculate v idx).Ix / (Calculate v idx).area) else 0) = 0
      rw [if_neg (not_lt.2 h)]
    · show (if (Calculate v idx).area > 1e-10
          then Real.sqrt ((Calculate v idx).Iy / (Calculate v idx).area) else 0) = 0
      rw [if_neg (not_lt.2 h)]
  · intro h
    show (if (CalculateFaceDerived v idx per).cy_max > 1e-10
        then (Calculate v idx).Ix / (CalculateFaceDerived v idx per).cy_max else 0) = 0
    rw [if_neg (not_lt.2 h)]
  · intro h
    show (if (CalculateFaceDerived v idx per).cx_max > 1e-10
        then (Calculate v idx).Iy / (CalculateFaceDerived v idx per).cx_max else 0) = 0
    rw [if_neg (not_lt.2 h)]

/-- Witness for C9: the empty mesh has area 0 and extreme-fiber distances 0,
so all four guarded fields stay zero. -/
theorem derived_stage_epsilon_guards_witness :
    (CalculateFaceDerived [] [] 0).Rx = 0 ∧ (CalculateFaceDerived [] [] 0).Ry = 0 ∧
    (CalculateFaceDerived [] [] 0).Sx_min = 0 ∧ (CalculateFaceDerived [] [] 0).Sy_min = 0 := by
  obtain ⟨-, -, -, -, hR, hSx, hSy⟩ := derived_stage_epsilon_guards [] [] 0
  have harea : (Calculate [] ([] : List ℤ)).area ≤ 1e-10 := by norm_num [Calculate, zeroResult]
  have hcy : (CalculateFaceDerived [] [] 0).cy_max ≤ 1e-10 := by
    norm_num [CalculateFaceDerived, extremeFibers]
  have hcx : (CalculateFaceDerived [] [] 0).cx_max ≤ 1e-10 := by
    norm_num [CalculateFaceDerived, extremeFibers]
  exact ⟨(hR harea).1, (hR harea).2, hSx hcy, hSy hcx⟩

/-- Claim C10: the `perimeter` field of every face-analysis result produced by
the calculation stage is exactly 0 — `ExtractFaceMesh` initialises the
perimeter to 0 and no code path updates it before `CalculateFace` copies it
into the result record (extracting 0 when no result is produced). -/
theorem faceAnalysis_perimeter_zero (pData : List ℝ) :
    ((CalculateFace pData).map ImGuiAreaMomentsResult.perimeter).getD 0 = 0 := by
  rw [CalculateFace, ExtractFaceMesh]
  dsimp only
  split_ifs <;> rfl

end AreaMoment
